import Mathlib

/-!
Verification of the cascade provider/tool/stream core.

Shallow embedding of:
  * `src/cascade/ui/stream.py`        (StreamRenderer, the stream segmenter)
  * `src/cascade/tools/executor.py`   (ToolExecutor)
  * `src/cascade/tools/schema.py`     (callable_to_tool_def, _annotation_to_schema)
  * `src/cascade/providers/claude.py` (ClaudeProvider.stream / ask_with_tools)
  * `src/cascade/providers/openai_provider.py` (OpenAIProvider.stream)
  * `src/cascade/providers/_openai_tools.py`   (openai_ask_with_tools)
  * `src/cascade/agents/runner.py`    (AgentRunner._agent_env)

Python strings are modelled as `List Char` where per-character processing
matters and as `String` elsewhere; console rendering is modelled by an event
list.  Python code that can raise is modelled with `Except`/explicit outcome
types, so that "never raises" claims become statements about total functions
returning ordinary values.
-/

namespace Cascade

/-! ### Stream segmenter — src/cascade/ui/stream.py

`StreamRenderer` keeps a two-state machine (`_State.PROSE` / `_State.CODE_BLOCK`)
with buffers `_line_buf`, `_code_buf`, `_code_lang`.  Rendering calls
(`_emit_prose_line`, `render_code_container`) are modelled as appending an
event; the `_first_line` flag and theme/console arguments only affect visual
styling of the emitted line, never which events occur or their text, so they
are not part of the state here. -/

/-- An emitted rendering event: a prose line or a completed code block
(language tag + body). -/
inductive SegEvent where
  | proseLine (text : List Char)
  | codeBlock (lang : List Char) (body : List Char)
deriving DecidableEq, Repr

/-- `_State` from stream.py. -/
inductive SegMode where
  | prose
  | code
deriving DecidableEq, Repr

/-- The mutable fields of `StreamRenderer`, plus the list of events emitted
so far (in order). -/
structure SegState where
  mode : SegMode
  lineBuf : List Char
  codeBuf : List Char
  codeLang : List Char
  events : List SegEvent
deriving DecidableEq, Repr

/-- `StreamRenderer.__init__`: PROSE state, all buffers empty. -/
def segInit : SegState :=
  { mode := .prose, lineBuf := [], codeBuf := [], codeLang := [], events := [] }

/-- Python `str.strip()`: remove whitespace from both ends. -/
def pyStrip (s : List Char) : List Char :=
  ((s.dropWhile Char.isWhitespace).reverse.dropWhile Char.isWhitespace).reverse

/-- Python `s.rstrip("\n")`: remove trailing newline characters. -/
def rstripNl (s : List Char) : List Char :=
  (s.reverse.dropWhile (· = '\n')).reverse

/-- The three-backtick fence marker. -/
def fenceChars : List Char := "```".data

/-- `StreamRenderer._process_char`, one character. -/
def processChar (st : SegState) (c : Char) : SegState :=
  match st.mode with
  | .prose =>
    let buf := st.lineBuf ++ [c]
    if c = '\n' then
      let line := rstripNl buf
      let stripped := pyStrip line
      if fenceChars.isPrefixOf stripped then
        { st with mode := .code, codeLang := pyStrip (stripped.drop 3),
                  codeBuf := [], lineBuf := [] }
      else
        { st with events := st.events ++ [.proseLine line], lineBuf := [] }
    else
      { st with lineBuf := buf }
  | .code =>
    let buf := st.lineBuf ++ [c]
    if c = '\n' then
      let line := rstripNl buf
      if pyStrip line = fenceChars then
        { st with events := st.events ++ [.codeBlock st.codeLang (rstripNl st.codeBuf)],
                  codeBuf := [], codeLang := [], mode := .prose, lineBuf := [] }
      else
        { st with codeBuf := st.codeBuf ++ buf, lineBuf := [] }
    else
      { st with lineBuf := buf }

/-- `StreamRenderer.feed`: process a chunk character by character. -/
def segFeed (st : SegState) (chunk : List Char) : SegState :=
  chunk.foldl processChar st

/-- Feed a sequence of chunks one `feed` call at a time. -/
def segFeedChunks (st : SegState) (chunks : List (List Char)) : SegState :=
  chunks.foldl segFeed st

/-- `StreamRenderer.finish`: flush an unterminated code block (only when its
body is nonempty), then flush the buffered partial line (only when it strips
to something nonempty).  Returns the full event list, in emission order. -/
def segFinish (st : SegState) : List SegEvent :=
  let ev1 :=
    if st.mode = SegMode.code ∧ st.codeBuf ≠ [] then
      st.events ++ [.codeBlock st.codeLang (rstripNl st.codeBuf)]
    else st.events
  if pyStrip st.lineBuf ≠ [] then ev1 ++ [.proseLine st.lineBuf] else ev1

/-! ### ToolExecutor — src/cascade/tools/executor.py

A parsed JSON argument dict is modelled as an association list whose
values are kept as their JSON serialisations; a handler's behaviour
(`tool.handler(**arguments)`) is modelled as a total function into an
outcome type, so that the `except TypeError` / `except Exception` clauses
of `ToolExecutor.execute` become pattern matches.  `json.dumps` of the
`{"result": ...}` / `{"error": "..."}` wrappers is modelled directly as
string concatenation (string escaping of the message is not modelled). -/

/-- A parsed JSON object of keyword arguments (values as JSON text). -/
abbrev ArgDict := List (String × String)

/-- Outcome of `tool.handler(**arguments)`: a normal return (the value's
JSON serialisation), a `TypeError` (signature mismatch or raised inside),
or any other exception. -/
inductive CallOutcome where
  | ok (resultJson : String)
  | typeError (msg : String)
  | exc (msg : String)
deriving DecidableEq, Repr

/-- A JSON Schema value as schema.py builds it: a dict with a `type` key, an
`items` key exactly when the schema came from a subscripted `list[X]`, and an
optional `description` key. -/
inductive JSchema where
  | prim (ty : String) (descr : Option String)
  | arrayOf (items : JSchema) (descr : Option String)
deriving DecidableEq, Repr

/-- The `type` field of the schema dict. -/
def JSchema.ty : JSchema → String
  | .prim t _ => t
  | .arrayOf _ _ => "array"

/-- The `items` field of the schema dict (absent for `prim`). -/
def JSchema.items : JSchema → Option JSchema
  | .prim _ _ => none
  | .arrayOf i _ => some i

/-- `prop_schema["description"] = param_doc`. -/
def JSchema.withDescr : JSchema → String → JSchema
  | .prim t _, d => .prim t (some d)
  | .arrayOf i _, d => .arrayOf i (some d)

/-- The `parameters` object of a ToolDef: `{"type": "object", "properties":
..., "required": ...}`; an empty `required` list models the absent key
(schema.py only sets the key when the list is nonempty). -/
structure ParamsSchema where
  properties : List (String × JSchema)
  required : List String
deriving DecidableEq, Repr

/-- `ToolDef` from schema.py: name, description, parameters schema, handler. -/
structure ToolDefM where
  name : String
  description : String
  parameters : ParamsSchema
  handler : ArgDict → CallOutcome

/-- The executor's `self._tools` dict (keys are unique tool names). -/
abbrev ToolMap := List (String × ToolDefM)

/-- `json.dumps({"error": msg})`. -/
def jsonErrorStr (msg : String) : String :=
  "\x7b\"error\": \"" ++ msg ++ "\"\x7d"

/-- `json.dumps({"result": r})` for a handler return value `r` (already in
its JSON serialisation). -/
def jsonResultStr (resultJson : String) : String :=
  "\x7b\"result\": " ++ resultJson ++ "\x7d"

/-- `ToolExecutor.execute`: a total function — every Python exception path
is caught in the source and becomes a returned error string here. -/
def executeTool (tools : ToolMap) (toolName : String) (arguments : ArgDict) :
    String :=
  match tools.lookup toolName with
  | none => jsonErrorStr ("Unknown tool: " ++ toolName)
  | some tool =>
    match tool.handler arguments with
    | .ok r => jsonResultStr r
    | .typeError e => jsonErrorStr ("Invalid arguments for " ++ toolName ++ ": " ++ e)
    | .exc e => jsonErrorStr ("Tool " ++ toolName ++ " failed: " ++ e)

/-! ### Tool schema derivation — src/cascade/tools/schema.py -/

/-- A Python type annotation as `_annotation_to_schema` distinguishes them:
`inspect.Parameter.empty`, `None`, the six `_TYPE_MAP` entries, subscripted
`list[X]` / `dict[K, V]`, `Optional[X]` (= `Union[X, None]`), or anything
else (which falls through to `{"type": "string"}`). -/
inductive PyAnn where
  | empty
  | noneAnn
  | str
  | int
  | float
  | bool
  | list
  | dict
  | listOf (a : PyAnn)
  | dictOf (k v : PyAnn)
  | optional (a : PyAnn)
  | other
deriving DecidableEq, Repr

/-- `_annotation_to_schema`. -/
def annotationToSchema : PyAnn → JSchema
  | .empty => .prim "string" none
  | .noneAnn => .prim "string" none
  | .str => .prim "string" none
  | .int => .prim "integer" none
  | .float => .prim "number" none
  | .bool => .prim "boolean" none
  | .list => .prim "array" none
  | .dict => .prim "object" none
  | .optional a => annotationToSchema a
  | .listOf a => .arrayOf (annotationToSchema a) none
  | .dictOf _ _ => .prim "object" none
  | .other => .prim "string" none

/-- Python `str.strip()` on `String`. -/
def pyStripS (s : String) : String :=
  ⟨pyStrip s.data⟩

/-- `stripped[colon_idx + 1:].strip()` for the first colon of `s`.  (The
`str.index` `ValueError` when a `"name ("` match has no colon anywhere is
not modelled; no claim exercises it.) -/
def afterFirstColonStrip (s : String) : String :=
  ⟨pyStrip (s.data.drop (s.data.findIdx (· = ':') + 1))⟩

/-- The line scan of `_extract_param_doc`: walks the docstring lines with
the `in_args` flag exactly as the source does. -/
def extractParamDocGo (param : String) : List String → Bool → Option String
  | [], _ => none
  | line :: rest, inArgs =>
    let stripped : String := pyStripS line
    if (stripped.toLower).startsWith "args:" then
      extractParamDocGo param rest true
    else if inArgs then
      if stripped ≠ "" ∧ stripped.startsWith "-" = false ∧
          (stripped.take 30).contains ':' = false ∧
          stripped.startsWith " " = false then
        extractParamDocGo param rest false
      else if stripped.startsWith (param ++ ":") ∨
          stripped.startsWith (param ++ " (") then
        some (afterFirstColonStrip stripped)
      else
        extractParamDocGo param rest inArgs
    else
      extractParamDocGo param rest inArgs

/-- `_extract_param_doc(docstring, param_name)`. -/
def extractParamDoc (doc : String) (param : String) : Option String :=
  if doc = "" then none else extractParamDocGo param (doc.splitOn "\n") false

/-- One parameter of a Python signature: its name, its annotation (already
resolved, as `get_type_hints` / `param.annotation` yield it), and whether it
has a default value. -/
structure PyParam where
  name : String
  annotation : PyAnn
  hasDefault : Bool
deriving DecidableEq, Repr

/-- A Python callable as `callable_to_tool_def` inspects it: its signature's
parameters in order, its docstring (`""` models `inspect.getdoc` returning
`None`), and its call behaviour (used as the ToolDef handler). -/
structure PyCallable where
  params : List PyParam
  doc : String
  call : ArgDict → CallOutcome

/-- The property-schema for one parameter: annotation schema plus the
docstring-mined description when one is found (and truthy). -/
def paramSchema (doc : String) (p : PyParam) : JSchema :=
  let s := annotationToSchema p.annotation
  match extractParamDoc doc p.name with
  | some d => if d = "" then s else s.withDescr d
  | none => s

/-- `callable_to_tool_def(name, fn, description)`. -/
def callableToToolDef (name : String) (fn : PyCallable) (description : String) :
    ToolDefM :=
  let doc := if fn.doc = "" then description else fn.doc
  let ps := fn.params.filter (fun p => p.name ≠ "self" ∧ p.name ≠ "cls")
  { name := name
    description := doc
    parameters :=
      { properties := ps.map (fun p => (p.name, paramSchema doc p))
        required := (ps.filter (fun p => ¬ p.hasDefault)).map PyParam.name }
    handler := fn.call }

/-- The spec's example callable `def f(a: str, b: int = 0) -> str` (no
docstring). -/
def fExample : PyCallable :=
  { params := [⟨"a", .str, false⟩, ⟨"b", .int, true⟩]
    doc := ""
    call := fun _ => .ok "\"\"" }

/-! ### Claude tool-calling loop — src/cascade/providers/claude.py

The HTTP round trip `client.post(...)` + `raise_for_status()` + `.json()`
is modelled as a function from the request's `messages` (the only payload
field that varies across rounds) to either a decoded response or a raised
transport exception.  The loop body is translated statement by statement;
`max_rounds` is the fuel of the recursion.  Returning the unbound local
`text_parts` after a zero-iteration loop is modelled by an `Option` that
starts out `none`. -/

/-- A content block of a Claude response (`data["content"]`). -/
inductive CBlock where
  | text (t : String)
  | toolUse (id : String) (name : String) (input : ArgDict)
  | otherBlock
deriving DecidableEq, Repr

/-- A decoded Claude messages response: `stop_reason` (default
`"end_turn"`), `content` (default `[]`), and the two usage counters
(default 0). -/
structure ClaudeResp where
  stopReason : String
  content : List CBlock
  usageIn : Nat
  usageOut : Nat
deriving DecidableEq, Repr

/-- A `tool_result` block sent back to Claude. -/
structure CToolResult where
  toolUseId : String
  content : String
deriving DecidableEq, Repr

/-- One element of the `messages` array the loop maintains. -/
inductive CMsg where
  | userText (content : String)
  | assistantBlocks (content : List CBlock)
  | userResults (content : List CToolResult)
deriving DecidableEq, Repr

/-- One entry of the `tool_log`. -/
structure ToolRecord where
  tool : String
  input : ArgDict
  output : String
deriving DecidableEq, Repr

/-- A Python error escaping a modelled function. -/
inductive PyErr where
  | unboundLocal (var : String)
deriving DecidableEq, Repr

/-- The vendor behind one `ask_with_tools` call. -/
abbrev ClaudeVendor := List CMsg → Except String ClaudeResp

/-- The `text_parts` extraction of the block scan. -/
def cTextParts (content : List CBlock) : List String :=
  content.filterMap fun b =>
    match b with
    | .text t => some t
    | _ => none

/-- A `tool_use` block's fields as the execution loop reads them. -/
structure CToolUse where
  id : String
  name : String
  input : ArgDict
deriving DecidableEq, Repr

/-- The `tool_uses` extraction of the block scan. -/
def cToolUses (content : List CBlock) : List CToolUse :=
  content.filterMap fun b =>
    match b with
    | .toolUse i n inp => some ⟨i, n, inp⟩
    | _ => none

/-- The `for tool_use in tool_uses` loop: executes each call, extends the
log, and builds the `tool_result` blocks, in order. -/
def cRunTools (tools : ToolMap) (tus : List CToolUse) (log : List ToolRecord) :
    List ToolRecord × List CToolResult :=
  match tus with
  | [] => (log, [])
  | tu :: rest =>
    let result := executeTool tools tu.name tu.input
    let next := cRunTools tools rest (log ++ [⟨tu.name, tu.input, result⟩])
    (next.1, ⟨tu.id, result⟩ :: next.2)

/-- One tool round's history extension (claude.py lines 143–166): append the
assistant turn with all content blocks, then one user turn holding the
`tool_result` blocks. -/
def claudeToolStep (tools : ToolMap) (resp : ClaudeResp) (msgs : List CMsg)
    (log : List ToolRecord) : List CMsg × List ToolRecord :=
  let run := cRunTools tools (cToolUses resp.content) log
  (msgs ++ [.assistantBlocks resp.content, .userResults run.2], run.1)

/-- Result of a full `ask_with_tools` call: the returned pair (or the raised
error), the `messages` snapshot sent in each round (in order), and the final
`_last_usage`. -/
structure ClaudeOutcome where
  result : Except PyErr (String × List ToolRecord)
  trace : List (List CMsg)
  usage : Option (Nat × Nat)

/-- The `for _ in range(max_rounds)` loop of `ClaudeProvider.ask_with_tools`,
with `lastText` holding the local `text_parts` of the latest completed
iteration (`none` = still unbound). -/
def claudeLoopAux (vendor : ClaudeVendor) (tools : ToolMap) :
    Nat → List CMsg → List ToolRecord → Option String → List (List CMsg) →
    Option (Nat × Nat) → ClaudeOutcome
  | 0, _msgs, log, lastText, trace, usage =>
    { result :=
        match lastText with
        | none => .error (.unboundLocal "text_parts")
        | some t => .ok (t, log)
      trace := trace, usage := usage }
  | fuel + 1, msgs, log, _lastText, trace, usage =>
    let trace' := trace ++ [msgs]
    match vendor msgs with
    | .error e => { result := .ok ("Error: " ++ e, log), trace := trace', usage := usage }
    | .ok resp =>
      let usage' :=
        if resp.usageIn ≠ 0 ∨ resp.usageOut ≠ 0 then
          let prev := usage.getD (0, 0)
          some (prev.1 + resp.usageIn, prev.2 + resp.usageOut)
        else usage
      let textParts := cTextParts resp.content
      if cToolUses resp.content = [] ∨ resp.stopReason ≠ "tool_use" then
        { result := .ok (String.join textParts, log), trace := trace', usage := usage' }
      else
        let next := claudeToolStep tools resp msgs log
        claudeLoopAux vendor tools fuel next.1 next.2 (some (String.join textParts))
          trace' usage'

/-- `ClaudeProvider.ask_with_tools(prompt, tools, system, max_rounds)`.  The
`system` string only adds a fixed payload field, absorbed into `vendor`. -/
def claudeAskWithTools (vendor : ClaudeVendor) (tools : ToolMap) (prompt : String)
    (maxRounds : Nat) : ClaudeOutcome :=
  claudeLoopAux vendor tools maxRounds [.userText prompt] [] none [] none

/-- Replay of `n` tool rounds of the Claude loop (message list and log after
each full round), used to state what the exhaustion path returns. -/
def claudeRoundsIter (vendor : ClaudeVendor) (tools : ToolMap) :
    Nat → List CMsg × List ToolRecord → List CMsg × List ToolRecord
  | 0, s => s
  | n + 1, s =>
    match vendor s.1 with
    | .ok resp => claudeRoundsIter vendor tools n (claudeToolStep tools resp s.1 s.2)
    | .error _ => s

/-- The response the vendor gives to a message list (with a dummy default in
the unreached transport-error case). -/
def claudeRespOr (vendor : ClaudeVendor) (msgs : List CMsg) : ClaudeResp :=
  match vendor msgs with
  | .ok r => r
  | .error _ => { stopReason := "end_turn", content := [], usageIn := 0, usageOut := 0 }

/-- A vendor that always signals a tool call: every request gets a decoded
response with `stop_reason == "tool_use"` and at least one `tool_use` block. -/
def claudeAlwaysToolUse (vendor : ClaudeVendor) : Prop :=
  ∀ msgs, ∃ resp, vendor msgs = .ok resp ∧ resp.stopReason = "tool_use" ∧
    cToolUses resp.content ≠ []

/-! ### OpenAI-compatible tool-calling loop — src/cascade/providers/_openai_tools.py -/

/-- The parse status of a tool call's `"arguments"` string: either
`json.loads` yields a dict, or it raises `JSONDecodeError`. -/
inductive OArgs where
  | parsed (d : ArgDict)
  | malformed (raw : String)
deriving DecidableEq, Repr

/-- The `try: json.loads(...) except JSONDecodeError: tool_args = {}`
statement. -/
def OArgs.load : OArgs → ArgDict
  | .parsed d => d
  | .malformed _ => []

/-- One entry of the assistant message's `tool_calls` array. -/
structure OToolCall where
  id : String
  fnName : String
  argumentsJson : OArgs
deriving DecidableEq, Repr

/-- The assistant `message` object (the fields the loop reads; `content`
may be JSON `null`, modelled as `none`). -/
structure OAsstMsg where
  content : Option String
  toolCalls : List OToolCall
deriving DecidableEq, Repr

/-- `choices[0]` of a chat-completions response. -/
structure OChoice where
  message : OAsstMsg
  finishReason : String
deriving DecidableEq, Repr

/-- A decoded chat-completions response. -/
structure OpenAIResp where
  choices : List OChoice
deriving DecidableEq, Repr

/-- One element of the `messages` array of the OpenAI-compatible loop. -/
inductive OMsg where
  | system (content : String)
  | user (content : String)
  | assistant (message : OAsstMsg)
  | tool (toolCallId : String) (content : String)
deriving DecidableEq, Repr

/-- The vendor behind one `openai_ask_with_tools` call. -/
abbrev OpenAIVendor := List OMsg → Except String OpenAIResp

/-- The `for tc in tool_calls` loop: parse arguments (malformed → `{}`),
execute, extend the log, and append one `role:"tool"` message keyed by
`tool_call_id`, in order. -/
def oRunToolCalls (tools : ToolMap) (tcs : List OToolCall) (msgs : List OMsg)
    (log : List ToolRecord) : List OMsg × List ToolRecord :=
  match tcs with
  | [] => (msgs, log)
  | tc :: rest =>
    let args := tc.argumentsJson.load
    let result := executeTool tools tc.fnName args
    oRunToolCalls tools rest (msgs ++ [.tool tc.id result])
      (log ++ [⟨tc.fnName, args, result⟩])

/-- One tool round's history extension: append the assistant message (with
its `tool_calls`), then the per-call `role:"tool"` messages. -/
def openaiToolStep (tools : ToolMap) (choice : OChoice) (msgs : List OMsg)
    (log : List ToolRecord) : List OMsg × List ToolRecord :=
  oRunToolCalls tools choice.message.toolCalls (msgs ++ [.assistant choice.message]) log

/-- Result of a full `openai_ask_with_tools` call. -/
structure OpenAIOutcome where
  result : Except PyErr (String × List ToolRecord)
  trace : List (List OMsg)

/-- The `for _ in range(max_rounds)` loop of `openai_ask_with_tools`, with
`lastContent` holding the local `content` of the latest completed iteration
(`none` = still unbound). -/
def openaiLoopAux (vendor : OpenAIVendor) (tools : ToolMap) :
    Nat → List OMsg → List ToolRecord → Option String → List (List OMsg) →
    OpenAIOutcome
  | 0, _msgs, log, lastContent, trace =>
    { result :=
        match lastContent with
        | none => .error (.unboundLocal "content")
        | some c => .ok (c, log)
      trace := trace }
  | fuel + 1, msgs, log, _lastContent, trace =>
    let trace' := trace ++ [msgs]
    match vendor msgs with
    | .error e => { result := .ok ("Error: " ++ e, log), trace := trace' }
    | .ok resp =>
      match resp.choices with
      | [] => { result := .ok ("", log), trace := trace' }
      | choice :: _ =>
        let content := choice.message.content.getD ""
        if choice.message.toolCalls = [] ∨ choice.finishReason ≠ "tool_calls" then
          { result := .ok (content, log), trace := trace' }
        else
          let next := openaiToolStep tools choice msgs log
          openaiLoopAux vendor tools fuel next.1 next.2 (some content) trace'

/-- The initial `messages` array: optional system message, then the user
prompt. -/
def openaiInitMsgs (prompt : String) (sys : Option String) : List OMsg :=
  (match sys with
   | some s => [OMsg.system s]
   | none => []) ++ [OMsg.user prompt]

/-- `openai_ask_with_tools(client, url, headers, model, temperature,
max_tokens, prompt, tools, system, max_rounds)`; the fixed request fields
are absorbed into `vendor`. -/
def openaiAskWithTools (vendor : OpenAIVendor) (tools : ToolMap) (prompt : String)
    (sys : Option String) (maxRounds : Nat) : OpenAIOutcome :=
  openaiLoopAux vendor tools maxRounds (openaiInitMsgs prompt sys) [] none []

/-- Replay of `n` tool rounds of the OpenAI-compatible loop. -/
def openaiRoundsIter (vendor : OpenAIVendor) (tools : ToolMap) :
    Nat → List OMsg × List ToolRecord → List OMsg × List ToolRecord
  | 0, s => s
  | n + 1, s =>
    match vendor s.1 with
    | .ok resp =>
      match resp.choices with
      | choice :: _ => openaiRoundsIter vendor tools n (openaiToolStep tools choice s.1 s.2)
      | [] => s
    | .error _ => s

/-- The first choice the vendor gives to a message list (dummy default in
the unreached error/empty cases). -/
def openaiChoiceOr (vendor : OpenAIVendor) (msgs : List OMsg) : OChoice :=
  match vendor msgs with
  | .ok resp =>
    match resp.choices with
    | c :: _ => c
    | [] => { message := { content := none, toolCalls := [] }, finishReason := "stop" }
  | .error _ => { message := { content := none, toolCalls := [] }, finishReason := "stop" }

/-- A vendor that always signals tool calls: every request gets a decoded
response whose first choice has `finish_reason == "tool_calls"` and a
nonempty `tool_calls` array. -/
def openaiAlwaysToolCalls (vendor : OpenAIVendor) : Prop :=
  ∀ msgs, ∃ resp choice rest, vendor msgs = .ok resp ∧
    resp.choices = choice :: rest ∧ choice.finishReason = "tool_calls" ∧
    choice.message.toolCalls ≠ []

/-! ### Streaming — ClaudeProvider.stream / OpenAIProvider.stream

One streaming request is modelled by what the transport does: either the
connect / `raise_for_status()` raises, or it delivers a list of SSE lines
and then either ends normally or raises mid-iteration.  Each line is
modelled by the decoded shape the per-line code inspects (`data: ` prefix
present?, JSON decoded?, which event type, which fields); the `_last_usage`
bookkeeping is omitted here since no claim concerns it. -/

/-- A transport run: `Except.error` = connect/status failure before any
line; otherwise the delivered lines plus an optional mid-iteration failure. -/
abbrev Transport (L : Type) := Except String (List L × Option String)

/-- One line of a Claude SSE body, as the loop in `ClaudeProvider.stream`
distinguishes them. -/
inductive ALine where
  | noData
  | badJson
  | contentDelta (text : Option String)
  | messageDelta (outTokens : Nat)
  | messageStart (inTokens : Nat)
  | otherEvent
deriving DecidableEq, Repr

/-- The fragment (if any) a Claude SSE line yields. -/
def claudeLineFrag : ALine → Option String
  | .contentDelta (some t) => some t
  | _ => none

/-- `ClaudeProvider.stream`, as the list of yielded fragments. -/
def claudeStream (t : Transport ALine) : List String :=
  match t with
  | .error e => ["Error: " ++ e]
  | .ok (lines, merr) =>
    lines.filterMap claudeLineFrag ++
      (match merr with
       | some e => ["Error: " ++ e]
       | none => [])

/-- One line of an OpenAI SSE body: no `data: ` prefix, the `[DONE]`
sentinel, an undecodable payload, or a decoded payload with optional usage
and the delta content string (`""` models a missing/null content). -/
inductive OLine where
  | noData
  | done
  | badJson
  | payload (usage : Option (Nat × Nat)) (content : String)
deriving DecidableEq, Repr

/-- The line loop of `OpenAIProvider.stream`: `[DONE]` breaks out of the
iteration (so a later transport failure is never reached), a nonempty delta
content is yielded. -/
def openaiGo : List OLine → Option String → List String
  | [], merr =>
    match merr with
    | some e => ["Error: " ++ e]
    | none => []
  | line :: rest, merr =>
    match line with
    | .done => []
    | .payload _ c => (if c ≠ "" then [c] else []) ++ openaiGo rest merr
    | _ => openaiGo rest merr

/-- `OpenAIProvider.stream`, as the list of yielded fragments. -/
def openaiStream (t : Transport OLine) : List String :=
  match t with
  | .error e => ["Error: " ++ e]
  | .ok (lines, merr) => openaiGo lines merr

/-- The fragments of the processed lines alone (no transport failure). -/
def openaiNormalFrags (lines : List OLine) : List String :=
  openaiGo lines none

/-! ### AgentRunner._agent_env — src/cascade/agents/runner.py

The provider's mutable `ProviderConfig`; `temperature` is a Python float,
modelled as `ℚ` since only assignment and equality of the stored value
matter here.  The body run under `_agent_env` (`prov.ask`, `prov.stream`
drained by the caller, `prov.ask_with_tools`) reads the config but never
writes it; its three possible exits — normal completion, an exception, and
early abandonment of the generator (`GeneratorExit`, after which the
`finally` of `AgentRunner.stream` still runs `cm.__exit__`) — are the
constructors of `BodyExit`. -/

structure ProviderConfigM where
  apiKey : String
  model : String
  baseUrl : Option String
  temperature : ℚ
  maxTokens : Option Nat
deriving DecidableEq, Repr

/-- The agent fields `_agent_env` reads.  `model` keeps Python truthiness:
`none` and `some ""` both skip the override. -/
structure AgentDefM where
  model : Option String
  temperature : Option ℚ
deriving DecidableEq, Repr

/-- How the borrowed provider call ends. -/
inductive BodyExit (α : Type) where
  | ok (a : α)
  | exn (msg : String)
  | closed
deriving DecidableEq, Repr

/-- Python truthiness of `agent.model`. -/
def pyTruthyStr : Option String → Bool
  | some s => s ≠ ""
  | none => false

/-- `_agent_env(agent)` wrapped around a body: save `model` and
`temperature`, apply the overrides, run the body, and restore both saved
fields in the `finally` clause — whatever the body's exit.  Returns the
body's exit and the config after the `finally`. -/
def agentEnv {α : Type} (agent : AgentDefM) (body : ProviderConfigM → BodyExit α)
    (cfg : ProviderConfigM) : BodyExit α × ProviderConfigM :=
  let origModel := cfg.model
  let origTemp := cfg.temperature
  let cfg1 :=
    if pyTruthyStr agent.model then { cfg with model := agent.model.getD cfg.model }
    else cfg
  let cfg2 :=
    match agent.temperature with
    | some t => { cfg1 with temperature := t }
    | none => cfg1
  (body cfg2, { cfg2 with model := origModel, temperature := origTemp })

/-! ### Concrete stubs used to instantiate the theorems -/

/-- A stubbed Claude vendor whose every response signals a tool call. -/
def stubClaudeVendor : ClaudeVendor := fun _ =>
  .ok { stopReason := "tool_use",
        content := [CBlock.toolUse "tu_1" "echo" [("message", "\"hi\"")]],
        usageIn := 0, usageOut := 0 }

/-- The choice returned by the stubbed OpenAI-compatible vendor below. -/
def stubOpenAIChoice : OChoice :=
  { message :=
      { content := some ""
        toolCalls := [⟨"call_1", "echo", OArgs.parsed [("message", "\"hi\"")]⟩] }
    finishReason := "tool_calls" }

/-- A stubbed OpenAI-compatible vendor whose every response signals a tool
call. -/
def stubOpenAIVendor : OpenAIVendor := fun _ =>
  .ok { choices := [stubOpenAIChoice] }

/-- A Claude vendor that answers the first request with text block `"A"`
and every later request with `"B"`, always signalling a tool call. -/
def c5Vendor : ClaudeVendor := fun msgs =>
  .ok { stopReason := "tool_use",
        content := [CBlock.text (if msgs.length ≤ 1 then "A" else "B"),
                    CBlock.toolUse "tu_1" "echo" []],
        usageIn := 0, usageOut := 0 }

/-- The spec's `"echo"` tool. -/
def echoToolDef : ToolDefM :=
  { name := "echo"
    description := "Echo a message."
    parameters := { properties := [("message", .prim "string" none)]
                    required := ["message"] }
    handler := fun args =>
      .ok (match args.lookup "message" with
           | some v => v
           | none => "null") }

/-- A registry holding only the `"echo"` tool. -/
def echoTools : ToolMap := [("echo", echoToolDef)]

/-- A stubbed Claude response carrying exactly one `tool_use` block for
`"echo"` with input `{"message": "hi"}`. -/
def echoResp : ClaudeResp :=
  { stopReason := "tool_use"
    content := [CBlock.toolUse "toolu_01" "echo" [("message", "\"hi\"")]]
    usageIn := 0, usageOut := 0 }

/-- A Claude vendor that always answers with `echoResp`. -/
def echoVendor : ClaudeVendor := fun _ => .ok echoResp

/-! ## Theorems -/

theorem segFeed_append (st : SegState) (a b : List Char) :
    segFeed st (a ++ b) = segFeed (segFeed st a) b :=
  List.foldl_append ..

theorem segFeedChunks_eq_join (chunks : List (List Char)) (st : SegState) :
    segFeedChunks st chunks = segFeed st chunks.flatten := by
  induction chunks generalizing st with
  | nil => rfl
  | cons c cs ih =>
    show segFeedChunks (segFeed st c) cs = segFeed st (c ++ cs.flatten)
    rw [segFeed_append, ih]

/-- C1: feeding a string as any sequence of chunks through
`StreamRenderer.feed` followed by `finish()` emits exactly the same event
sequence (prose lines and code blocks, in order, with identical text and
language tags) as feeding the whole string in one call followed by
`finish()`; in particular chunk boundaries inside a fence marker are
harmless, since processing is a per-character left fold. -/
theorem c1_chunking_invariance (chunks : List (List Char)) :
    segFinish (segFeedChunks segInit chunks) =
      segFinish (segFeed segInit chunks.flatten) := by
  rw [segFeedChunks_eq_join]

-- Sanity checks from the spec's §8 examples.
example :
    segFinish (segFeed segInit "```python\nx=1\n```\n".data) =
      [SegEvent.codeBlock "python".data "x=1".data] := by decide

example :
    segFinish (segFeedChunks segInit ["Hello ".data, "world\n".data]) =
      [SegEvent.proseLine "Hello world".data] := by decide

/-- C2 counterexample: after feeding the single character `" "`, the buffered
partial prose line is nonempty, yet `finish()` emits no event at all — the
whitespace-only buffer is dropped by the `line_buf.strip()` guard, so the
fed character never appears in any emitted event. -/
theorem c2_counterexample :
    segFinish (segFeed segInit " ".data) = [] ∧
      (segFeed segInit " ".data).lineBuf ≠ [] := by decide

/-- C2 (amended): `finish()` emits an accumulated unterminated code block as
a code block (no closing fence required) whenever its accumulated body is
nonempty — with trailing newlines stripped from the body — and emits the
buffered partial prose line lacking a terminating newline as a prose line
whenever that buffer contains a non-whitespace character; empty or
whitespace-only buffers produce no event. -/
theorem c2_finish_flushes (st : SegState) :
    (st.mode = SegMode.code → st.codeBuf ≠ [] →
      SegEvent.codeBlock st.codeLang (rstripNl st.codeBuf) ∈ segFinish st) ∧
    (pyStrip st.lineBuf ≠ [] →
      SegEvent.proseLine st.lineBuf ∈ segFinish st) := by
  unfold segFinish
  constructor
  · intro hm hc
    have h1 : (st.mode = SegMode.code ∧ st.codeBuf ≠ []) := ⟨hm, hc⟩
    simp only [if_pos h1]
    split
    · exact List.mem_append_left _ (List.mem_append_right _ (List.mem_singleton_self _))
    · exact List.mem_append_right _ (List.mem_singleton_self _)
  · intro hl
    simp only [if_pos hl]
    split
    · exact List.mem_append_right _ (List.mem_singleton_self _)
    · exact List.mem_append_right _ (List.mem_singleton_self _)

/-- Witness for C2 (amended): after feeding an unterminated code block
followed by a partial line, `finish()` emits both the code block and the
partial prose line. -/
theorem c2_finish_flushes_witness :
    SegEvent.codeBlock (segFeed segInit "```python\nx=1\nfoo".data).codeLang
        (rstripNl (segFeed segInit "```python\nx=1\nfoo".data).codeBuf)
      ∈ segFinish (segFeed segInit "```python\nx=1\nfoo".data) ∧
    SegEvent.proseLine (segFeed segInit "```python\nx=1\nfoo".data).lineBuf
      ∈ segFinish (segFeed segInit "```python\nx=1\nfoo".data) :=
  ⟨(c2_finish_flushes _).1 (by decide) (by decide),
   (c2_finish_flushes _).2 (by decide)⟩

theorem jsonErrorStr_decomp (m : String) :
    jsonErrorStr m = "\x7b\"" ++ "error" ++ ("\": \"" ++ m ++ "\"\x7d") := by
  have h1 : ("\x7b\"" ++ "error" ++ "\": \"" : String) = "\x7b\"error\": \"" := rfl
  calc jsonErrorStr m = ("\x7b\"" ++ "error" ++ "\": \"") ++ m ++ "\"\x7d" := by
        rw [h1]; rfl
    _ = "\x7b\"" ++ "error" ++ ("\": \"" ++ m ++ "\"\x7d") := by
        simp only [String.append_assoc]

/-- C3: `ToolExecutor.execute` is a total function into strings (every
exception path of the source is caught and returned, so it never raises):
on an unregistered tool name the returned string contains `"error"`, and on
a registered tool it returns the `{"result": ...}` JSON when the handler
returns normally and the `{"error": ...}` JSON when the arguments do not
match the handler (`TypeError`) or the handler raises. -/
theorem c3_executor_structured (tools : ToolMap) (toolName : String)
    (arguments : ArgDict) :
    (tools.lookup toolName = none →
      ∃ pre post, executeTool tools toolName arguments = pre ++ "error" ++ post) ∧
    (∀ tool, tools.lookup toolName = some tool →
      ((∀ r, tool.handler arguments = .ok r →
          executeTool tools toolName arguments = jsonResultStr r) ∧
       (∀ e, tool.handler arguments = .typeError e →
          executeTool tools toolName arguments =
            jsonErrorStr ("Invalid arguments for " ++ toolName ++ ": " ++ e)) ∧
       (∀ e, tool.handler arguments = .exc e →
          executeTool tools toolName arguments =
            jsonErrorStr ("Tool " ++ toolName ++ " failed: " ++ e)))) := by
  constructor
  · intro h
    refine ⟨"\x7b\"", "\": \"" ++ ("Unknown tool: " ++ toolName ++ "\"\x7d"), ?_⟩
    simp only [executeTool, h, jsonErrorStr_decomp]
    simp only [String.append_assoc]
  · intro tool h
    refine ⟨?_, ?_, ?_⟩ <;> intro v hv <;> simp [executeTool, h, hv]

/-- Witness for C3: executing an unregistered tool name against an empty
registry returns a string containing `"error"`. -/
theorem c3_executor_structured_witness :
    ∃ pre post, executeTool [] "missing" [] = pre ++ "error" ++ post :=
  (c3_executor_structured [] "missing" []).1 rfl

/-- C7: for `def f(a: str, b: int = 0) -> str` the derived schema has
`required == ["a"]` and `properties.b.type == "integer"`; in general every
parameter lacking a default (other than `self`/`cls`) is listed in
`required`, the primitive annotations map to
string/integer/number/boolean, `list[X]` maps to an array whose `items`
schema is derived recursively from `X`, and `Optional[T]` is unwrapped to
`T`'s schema. -/
theorem c7_schema_derivation :
    (callableToToolDef "f" fExample "").parameters.required = ["a"] ∧
    ((callableToToolDef "f" fExample "").parameters.properties.lookup "b").map JSchema.ty
      = some "integer" ∧
    (∀ name fn descr p, p ∈ fn.params → p.name ≠ "self" → p.name ≠ "cls" →
      ¬ p.hasDefault →
      p.name ∈ (callableToToolDef name fn descr).parameters.required) ∧
    annotationToSchema .str = .prim "string" none ∧
    annotationToSchema .int = .prim "integer" none ∧
    annotationToSchema .float = .prim "number" none ∧
    annotationToSchema .bool = .prim "boolean" none ∧
    (∀ a, annotationToSchema (.listOf a) = .arrayOf (annotationToSchema a) none) ∧
    (∀ a, annotationToSchema (.optional a) = annotationToSchema a) := by
  refine ⟨by decide, by decide, ?_, rfl, rfl, rfl, rfl, fun a => rfl, fun a => rfl⟩
  intro name fn descr p hp hs hc hd
  simp only [callableToToolDef]
  exact List.mem_map.2
    ⟨p, List.mem_filter.2 ⟨List.mem_filter.2 ⟨hp, by simp [hs, hc]⟩, by simp [hd]⟩, rfl⟩

/-- Witness for C7: the no-default parameter `a` of the example callable is
listed in `required`. -/
theorem c7_schema_derivation_witness :
    ("a" : String) ∈ (callableToToolDef "f" fExample "").parameters.required :=
  c7_schema_derivation.2.2.1 "f" fExample "" ⟨"a", .str, false⟩
    (by decide) (by decide) (by decide) (by decide)

/-- C9: `_agent_env` restores the provider config on every exit path of the
wrapped body — normal return, exception, and early abandonment of the
stream generator are all values of `BodyExit`, and the `finally`-modelled
restore runs for each of them — so after the call every `ProviderConfig`
field equals its value from before the call. -/
theorem c9_config_restored {α : Type} (agent : AgentDefM)
    (body : ProviderConfigM → BodyExit α) (cfg : ProviderConfigM) :
    (agentEnv agent body cfg).2 = cfg := by
  obtain ⟨k, m, b, t, mt⟩ := cfg
  simp only [agentEnv]
  cases h : agent.temperature <;> cases hm : pyTruthyStr agent.model <;>
    simp [h, hm]

/-- C10: in the OpenAI-compatible tool-call processing, every tool call in
the round — whether its `"arguments"` string parses or not — is executed
and answered by exactly one `role:"tool"` message keyed by its
`tool_call_id`, and an `"arguments"` string that is not valid JSON is
replaced by the empty dict (the tool is executed with no arguments); the
processing is a total function, so a malformed arguments string never
raises and never aborts the round. -/
theorem c10_malformed_args_handled :
    (∀ tools tcs msgs log,
      oRunToolCalls tools tcs msgs log =
        (msgs ++ tcs.map (fun tc =>
            OMsg.tool tc.id (executeTool tools tc.fnName tc.argumentsJson.load)),
         log ++ tcs.map (fun tc =>
            ⟨tc.fnName, tc.argumentsJson.load,
             executeTool tools tc.fnName tc.argumentsJson.load⟩))) ∧
    (∀ raw, OArgs.load (.malformed raw) = []) := by
  constructor
  · intro tools tcs
    induction tcs with
    | nil => intro msgs log; simp [oRunToolCalls]
    | cons tc rest ih =>
      intro msgs log
      simp [oRunToolCalls, ih, List.append_assoc]
  · intro raw
    rfl

theorem openaiGo_no_done (lines : List OLine) (e : String)
    (h : OLine.done ∉ lines) :
    openaiGo lines (some e) = openaiNormalFrags lines ++ ["Error: " ++ e] := by
  induction lines with
  | nil => rfl
  | cons l rest ih =>
    have hrest : OLine.done ∉ rest := fun hh => h (List.mem_cons_of_mem _ hh)
    cases l with
    | done => exact absurd (List.mem_cons_self _ _) h
    | payload u c =>
      simp only [openaiGo, openaiNormalFrags, ih hrest, List.append_assoc]
    | noData => simpa [openaiGo, openaiNormalFrags] using ih hrest
    | badJson => simpa [openaiGo, openaiNormalFrags] using ih hrest

/-- C6: a transport failure during `stream` — a connect/status failure, or
an exception raised while iterating the response lines — makes the returned
stream yield the fragments of the lines processed so far followed by exactly
one synthetic fragment `"Error: " ++ e`, for both the Claude-style and the
OpenAI-style adapter; the generator is a total function, so the consumer is
never interrupted by an escaping exception.  (For the OpenAI adapter a
mid-iteration failure is only reached when no `[DONE]` sentinel came first,
since `[DONE]` breaks out of the iteration.) -/
theorem c6_stream_error_fragment :
    (∀ e : String, claudeStream (.error e) = ["Error: " ++ e]) ∧
    (∀ lines e, claudeStream (.ok (lines, some e)) =
      lines.filterMap claudeLineFrag ++ ["Error: " ++ e]) ∧
    (∀ e : String, openaiStream (.error e) = ["Error: " ++ e]) ∧
    (∀ lines e, OLine.done ∉ lines →
      openaiStream (.ok (lines, some e)) =
        openaiNormalFrags lines ++ ["Error: " ++ e]) :=
  ⟨fun _ => rfl, fun _ _ => rfl, fun _ => rfl,
   fun lines e h => openaiGo_no_done lines e h⟩

/-- Witness for C6: a timeout after one delivered content line yields the
content fragment and then the single synthetic error fragment. -/
theorem c6_stream_error_fragment_witness :
    openaiStream (Except.ok ([OLine.payload none "hi"], some "timeout")) =
      openaiNormalFrags [OLine.payload none "hi"] ++ ["Error: " ++ "timeout"] :=
  c6_stream_error_fragment.2.2.2 [OLine.payload none "hi"] "timeout" (by decide)

theorem claudeLoopAux_trace_length (vendor : ClaudeVendor) (tools : ToolMap)
    (h : claudeAlwaysToolUse vendor) :
    ∀ fuel msgs log lastText trace usage,
      (claudeLoopAux vendor tools fuel msgs log lastText trace usage).trace.length =
        trace.length + fuel := by
  intro fuel
  induction fuel with
  | zero => intro msgs log lt trace u; rfl
  | succ n ih =>
    intro msgs log lt trace u
    obtain ⟨resp, hv, hstop, htus⟩ := h msgs
    have hcond : ¬ (cToolUses resp.content = [] ∨ resp.stopReason ≠ "tool_use") := by
      push_neg
      exact ⟨htus, hstop⟩
    simp only [claudeLoopAux, hv]
    rw [if_neg hcond, ih]
    simp only [List.length_append, List.length_cons, List.length_nil]
    omega

theorem openaiLoopAux_trace_length (vendor : OpenAIVendor) (tools : ToolMap)
    (h : openaiAlwaysToolCalls vendor) :
    ∀ fuel msgs log lastContent trace,
      (openaiLoopAux vendor tools fuel msgs log lastContent trace).trace.length =
        trace.length + fuel := by
  intro fuel
  induction fuel with
  | zero => intro msgs log lc trace; rfl
  | succ n ih =>
    intro msgs log lc trace
    obtain ⟨resp, choice, rest, hv, hch, hfin, htc⟩ := h msgs
    have hcond : ¬ (choice.message.toolCalls = [] ∨ choice.finishReason ≠ "tool_calls") := by
      push_neg
      exact ⟨htc, hfin⟩
    simp only [openaiLoopAux, hv, hch]
    rw [if_neg hcond, ih]
    simp only [List.length_append, List.length_cons, List.length_nil]
    omega

theorem stubClaudeVendor_always : claudeAlwaysToolUse stubClaudeVendor :=
  fun _ => ⟨_, rfl, rfl, by decide⟩

theorem stubOpenAIVendor_always : openaiAlwaysToolCalls stubOpenAIVendor :=
  fun _ => ⟨_, _, _, rfl, rfl, rfl, by decide⟩

/-- C4: against a vendor whose every response signals a tool call
(finish/stop signal for tool use plus at least one tool-call block), the
tool-calling loop of either adapter performs exactly `maxRounds = n ≥ 1`
request/response round trips (the per-round request trace has length
exactly `n`) and then returns. -/
theorem c4_exact_rounds (vendorC : ClaudeVendor) (vendorO : OpenAIVendor)
    (tools : ToolMap) (prompt : String) (sys : Option String) (n : Nat)
    (_hn : 1 ≤ n) (hC : claudeAlwaysToolUse vendorC)
    (hO : openaiAlwaysToolCalls vendorO) :
    (claudeAskWithTools vendorC tools prompt n).trace.length = n ∧
    (openaiAskWithTools vendorO tools prompt sys n).trace.length = n := by
  constructor
  · rw [claudeAskWithTools, claudeLoopAux_trace_length vendorC tools hC]
    simp
  · rw [openaiAskWithTools, openaiLoopAux_trace_length vendorO tools hO]
    simp

/-- Witness for C4: with `maxRounds = 3` and stubbed always-tool-call
vendors, both loops perform exactly 3 round trips. -/
theorem c4_exact_rounds_witness :
    1 ≤ 3 ∧
    (claudeAskWithTools stubClaudeVendor [] "p" 3).trace.length = 3 ∧
    (openaiAskWithTools stubOpenAIVendor [] "p" none 3).trace.length = 3 :=
  ⟨by decide,
   (c4_exact_rounds stubClaudeVendor stubOpenAIVendor [] "p" none 3 (by decide)
      stubClaudeVendor_always stubOpenAIVendor_always).1,
   (c4_exact_rounds stubClaudeVendor stubOpenAIVendor [] "p" none 3 (by decide)
      stubClaudeVendor_always stubOpenAIVendor_always).2⟩

theorem claudeLoopAux_exhaust (vendor : ClaudeVendor) (tools : ToolMap)
    (h : claudeAlwaysToolUse vendor) :
    ∀ fuel msgs log lastText trace usage,
      (claudeLoopAux vendor tools (fuel + 1) msgs log lastText trace usage).result =
        .ok (String.join (cTextParts (claudeRespOr vendor
              (claudeRoundsIter vendor tools fuel (msgs, log)).1).content),
          (claudeRoundsIter vendor tools (fuel + 1) (msgs, log)).2) := by
  intro fuel
  induction fuel with
  | zero =>
    intro msgs log lt trace u
    obtain ⟨resp, hv, hstop, htus⟩ := h msgs
    have hcond : ¬ (cToolUses resp.content = [] ∨ resp.stopReason ≠ "tool_use") := by
      push_neg
      exact ⟨htus, hstop⟩
    simp only [claudeLoopAux, hv]
    rw [if_neg hcond]
    simp [claudeLoopAux, claudeRoundsIter, claudeRespOr, hv]
  | succ n ih =>
    intro msgs log lt trace u
    obtain ⟨resp, hv, hstop, htus⟩ := h msgs
    have hcond : ¬ (cToolUses resp.content = [] ∨ resp.stopReason ≠ "tool_use") := by
      push_neg
      exact ⟨htus, hstop⟩
    rw [claudeLoopAux, hv]
    dsimp only
    rw [if_neg hcond, ih]
    have h1 : claudeRoundsIter vendor tools (n + 1) (msgs, log) =
        claudeRoundsIter vendor tools n (claudeToolStep tools resp msgs log) := by
      simp [claudeRoundsIter, hv]
    have h2 : claudeRoundsIter vendor tools (n + 1 + 1) (msgs, log) =
        claudeRoundsIter vendor tools (n + 1) (claudeToolStep tools resp msgs log) := by
      simp [claudeRoundsIter, hv]
    rw [h1, h2]

theorem openaiLoopAux_exhaust (vendor : OpenAIVendor) (tools : ToolMap)
    (h : openaiAlwaysToolCalls vendor) :
    ∀ fuel msgs log lastContent trace,
      (openaiLoopAux vendor tools (fuel + 1) msgs log lastContent trace).result =
        .ok ((openaiChoiceOr vendor
              (openaiRoundsIter vendor tools fuel (msgs, log)).1).message.content.getD "",
          (openaiRoundsIter vendor tools (fuel + 1) (msgs, log)).2) := by
  intro fuel
  induction fuel with
  | zero =>
    intro msgs log lc trace
    obtain ⟨resp, choice, rest, hv, hch, hfin, htc⟩ := h msgs
    have hcond : ¬ (choice.message.toolCalls = [] ∨ choice.finishReason ≠ "tool_calls") := by
      push_neg
      exact ⟨htc, hfin⟩
    simp only [openaiLoopAux, hv, hch]
    rw [if_neg hcond]
    simp [openaiLoopAux, openaiRoundsIter, openaiChoiceOr, hv, hch]
  | succ n ih =>
    intro msgs log lc trace
    obtain ⟨resp, choice, rest, hv, hch, hfin, htc⟩ := h msgs
    have hcond : ¬ (choice.message.toolCalls = [] ∨ choice.finishReason ≠ "tool_calls") := by
      push_neg
      exact ⟨htc, hfin⟩
    rw [openaiLoopAux, hv]
    dsimp only
    rw [hch]
    dsimp only
    rw [if_neg hcond, ih]
    have h1 : openaiRoundsIter vendor tools (n + 1) (msgs, log) =
        openaiRoundsIter vendor tools n (openaiToolStep tools choice msgs log) := by
      simp [openaiRoundsIter, hv, hch]
    have h2 : openaiRoundsIter vendor tools (n + 1 + 1) (msgs, log) =
        openaiRoundsIter vendor tools (n + 1) (openaiToolStep tools choice msgs log) := by
      simp [openaiRoundsIter, hv, hch]
    rw [h1, h2]

/-- C5 counterexample: with a vendor that answers the first round with text
`"A"` and the second with `"B"` (both signalling tool use) and
`maxRounds = 2`, the Claude-style loop returns `"B"` — the final round's
text only, not the text accumulated across rounds (`"AB"`); and with
`maxRounds = 0` the call does not return a value at all: it raises
`UnboundLocalError` on the never-assigned local `text_parts`. -/
theorem c5_counterexample :
    ((claudeAskWithTools c5Vendor [] "p" 2).result.map Prod.fst = Except.ok "B") ∧
    "B" ≠ "A" ++ "B" ∧
    (claudeAskWithTools c5Vendor [] "p" 0).result =
      Except.error (PyErr.unboundLocal "text_parts") := by
  refine ⟨rfl, by decide, rfl⟩

/-- C5 (amended): when `maxRounds = n ≥ 1` is exhausted without reaching
the terminal no-tool-call state, `askWithTools` returns normally — never an
exception — with the tool-call log and the text extracted from the final
round's response only (earlier rounds' text is discarded, since the local
text variable is rebound each round); with `maxRounds = 0` the code instead
raises `UnboundLocalError`, because the text variable is never bound before
the final `return` reads it.  Holds for the Claude-style and the
OpenAI-compatible loop. -/
theorem c5_round_exhaustion (vendorC : ClaudeVendor) (vendorO : OpenAIVendor)
    (tools : ToolMap) (prompt : String) (sys : Option String) (n : Nat)
    (hn : 1 ≤ n) (hC : claudeAlwaysToolUse vendorC)
    (hO : openaiAlwaysToolCalls vendorO) :
    ((claudeAskWithTools vendorC tools prompt n).result =
      .ok (String.join (cTextParts (claudeRespOr vendorC
            (claudeRoundsIter vendorC tools (n - 1) ([CMsg.userText prompt], [])).1).content),
        (claudeRoundsIter vendorC tools n ([CMsg.userText prompt], [])).2)) ∧
    ((openaiAskWithTools vendorO tools prompt sys n).result =
      .ok ((openaiChoiceOr vendorO
            (openaiRoundsIter vendorO tools (n - 1) (openaiInitMsgs prompt sys, [])).1).message.content.getD "",
        (openaiRoundsIter vendorO tools n (openaiInitMsgs prompt sys, [])).2)) ∧
    (claudeAskWithTools vendorC tools prompt 0).result =
      .error (PyErr.unboundLocal "text_parts") ∧
    (openaiAskWithTools vendorO tools prompt sys 0).result =
      .error (PyErr.unboundLocal "content") := by
  obtain ⟨m, rfl⟩ : ∃ m, n = m + 1 := ⟨n - 1, by omega⟩
  refine ⟨?_, ?_, rfl, rfl⟩
  · simpa using claudeLoopAux_exhaust vendorC tools hC m [CMsg.userText prompt] [] none [] none
  · simpa using openaiLoopAux_exhaust vendorO tools hO m (openaiInitMsgs prompt sys) [] none []

/-- Witness for C5 (amended): both loops, run for one round against the
always-tool-call stubs, return the final (only) round's text and log
without raising. -/
theorem c5_round_exhaustion_witness :
    ((claudeAskWithTools stubClaudeVendor [] "p" 1).result =
      .ok (String.join (cTextParts (claudeRespOr stubClaudeVendor
            (claudeRoundsIter stubClaudeVendor [] 0 ([CMsg.userText "p"], [])).1).content),
        (claudeRoundsIter stubClaudeVendor [] 1 ([CMsg.userText "p"], [])).2)) ∧
    ((openaiAskWithTools stubOpenAIVendor [] "p" none 1).result =
      .ok ((openaiChoiceOr stubOpenAIVendor
            (openaiRoundsIter stubOpenAIVendor [] 0 (openaiInitMsgs "p" none, [])).1).message.content.getD "",
        (openaiRoundsIter stubOpenAIVendor [] 1 (openaiInitMsgs "p" none, [])).2)) :=
  ⟨(c5_round_exhaustion stubClaudeVendor stubOpenAIVendor [] "p" none 1 (by decide)
      stubClaudeVendor_always stubOpenAIVendor_always).1,
   (c5_round_exhaustion stubClaudeVendor stubOpenAIVendor [] "p" none 1 (by decide)
      stubClaudeVendor_always stubOpenAIVendor_always).2.1⟩

theorem claudeLoopAux_trace_extends (vendor : ClaudeVendor) (tools : ToolMap) :
    ∀ fuel msgs log lastText trace usage, ∃ rest,
      (claudeLoopAux vendor tools fuel msgs log lastText trace usage).trace =
        trace ++ rest := by
  intro fuel
  induction fuel with
  | zero =>
    intro msgs log lt trace u
    exact ⟨[], by simp [claudeLoopAux]⟩
  | succ n ih =>
    intro msgs log lt trace u
    cases hv : vendor msgs with
    | error e => exact ⟨[msgs], by simp [claudeLoopAux, hv]⟩
    | ok resp =>
      by_cases hcond : (cToolUses resp.content = [] ∨ resp.stopReason ≠ "tool_use")
      · exact ⟨[msgs], by simp only [claudeLoopAux, hv]; rw [if_pos hcond]⟩
      · obtain ⟨r, hr⟩ := ih (claudeToolStep tools resp msgs log).1
          (claudeToolStep tools resp msgs log).2
          (some (String.join (cTextParts resp.content)))
          (trace ++ [msgs])
          (if resp.usageIn ≠ 0 ∨ resp.usageOut ≠ 0 then
            some ((u.getD (0, 0)).1 + resp.usageIn, (u.getD (0, 0)).2 + resp.usageOut)
          else u)
        refine ⟨[msgs] ++ r, ?_⟩
        simp only [claudeLoopAux, hv]
        rw [if_neg hcond, hr]
        simp [List.append_assoc]

theorem claudeLoopAux_trace_get1 (vendor : ClaudeVendor) (tools : ToolMap)
    (fuel : Nat) (msgs : List CMsg) (log : List ToolRecord)
    (lastText : Option String) (firstReq : List CMsg) (usage : Option (Nat × Nat)) :
    (claudeLoopAux vendor tools (fuel + 1) msgs log lastText [firstReq] usage).trace.get? 1 =
      some msgs := by
  cases hv : vendor msgs with
  | error e => simp [claudeLoopAux, hv]
  | ok resp =>
    by_cases hcond : (cToolUses resp.content = [] ∨ resp.stopReason ≠ "tool_use")
    · simp only [claudeLoopAux, hv]
      rw [if_pos hcond]
      rfl
    · simp only [claudeLoopAux, hv]
      rw [if_neg hcond]
      obtain ⟨r, hr⟩ := claudeLoopAux_trace_extends vendor tools fuel
        (claudeToolStep tools resp msgs log).1
        (claudeToolStep tools resp msgs log).2
        (some (String.join (cTextParts resp.content)))
        ([firstReq] ++ [msgs])
        (if resp.usageIn ≠ 0 ∨ resp.usageOut ≠ 0 then
          some ((usage.getD (0, 0)).1 + resp.usageIn, (usage.getD (0, 0)).2 + resp.usageOut)
        else usage)
      rw [hr]
      rfl

theorem cRunTools_ids (tools : ToolMap) (tus : List CToolUse) :
    ∀ log, (cRunTools tools tus log).2.map CToolResult.toolUseId =
      tus.map CToolUse.id := by
  induction tus with
  | nil => intro log; rfl
  | cons tu rest ih => intro log; simp [cRunTools, ih]

/-- C8: in the Claude-style loop, a round whose response content holds
exactly one `tool_use` block (id `tu.id`) is answered — before the next
round's request is issued — by appending the assistant turn and then a
single user-role turn containing exactly one `tool_result` block whose
`tool_use_id` is `tu.id` (the trace entry for the second request shows the
history in exactly that shape); in general the `tool_result` blocks built
for a round carry exactly the ids of its `tool_use` blocks, in order. -/
theorem c8_tool_result_per_tool_use (vendor : ClaudeVendor) (tools : ToolMap)
    (prompt : String) (n : Nat) (resp : ClaudeResp) (tu : CToolUse)
    (hn : 2 ≤ n)
    (hv : vendor [CMsg.userText prompt] = .ok resp)
    (hstop : resp.stopReason = "tool_use")
    (htu : cToolUses resp.content = [tu]) :
    (claudeAskWithTools vendor tools prompt n).trace.get? 1 =
      some [CMsg.userText prompt, CMsg.assistantBlocks resp.content,
        CMsg.userResults [⟨tu.id, executeTool tools tu.name tu.input⟩]] ∧
    (∀ tus log, (cRunTools tools tus log).2.map CToolResult.toolUseId =
      tus.map CToolUse.id) := by
  refine ⟨?_, fun tus log => cRunTools_ids tools tus log⟩
  obtain ⟨m, rfl⟩ : ∃ m, n = m + 1 + 1 := ⟨n - 2, by omega⟩
  have hcond : ¬ (cToolUses resp.content = [] ∨ resp.stopReason ≠ "tool_use") := by
    rw [htu, hstop]
    simp
  have hstep : claudeToolStep tools resp [CMsg.userText prompt] [] =
      ([CMsg.userText prompt, CMsg.assistantBlocks resp.content,
        CMsg.userResults [⟨tu.id, executeTool tools tu.name tu.input⟩]],
       [⟨tu.name, tu.input, executeTool tools tu.name tu.input⟩]) := by
    simp [claudeToolStep, htu, cRunTools]
  rw [claudeAskWithTools, claudeLoopAux, hv]
  dsimp only
  rw [if_neg hcond, hstep]
  exact claudeLoopAux_trace_get1 vendor tools m _ _ _ _ _

/-- Witness for C8: the spec's stubbed `"echo"` scenario — one `tool_use`
block with input `{"message": "hi"}` — yields a second-round request whose
history ends in a single user turn holding one `tool_result` keyed by the
originating id. -/
theorem c8_tool_result_per_tool_use_witness :
    (claudeAskWithTools echoVendor echoTools "p" 2).trace.get? 1 =
      some [CMsg.userText "p", CMsg.assistantBlocks echoResp.content,
        CMsg.userResults [⟨"toolu_01",
          executeTool echoTools "echo" [("message", "\"hi\"")]⟩]] :=
  (c8_tool_result_per_tool_use echoVendor echoTools "p" 2 echoResp
      ⟨"toolu_01", "echo", [("message", "\"hi\"")]⟩
      (by decide) rfl rfl (by decide)).1

end Cascade
